import Mathlib

/-!
Shallow embedding of the `agentmemory` Postgres collection layer
(`src/agentmemory/postgres.py`) and proofs about its CRUD and query
operations.

A category's backing table `memory_<category>` is modelled as a `Table`:
its dynamically grown metadata column set plus its rows.  A row stores the
three reserved columns (`id`, `document`, `embedding`) explicitly; the
metadata columns are stored as an association list holding only the
non-NULL cells, so a metadata column whose cell is SQL NULL is simply
absent from the row's association list.  The external embedding model
(`create_embedding`, which calls `infer_embeddings`) is a black box in the
source, so every operation is parameterised by an arbitrary
`embed : String → Vec`.  Vector components are modelled as integers and
the pgvector distance operator `<->` as the (squared) Euclidean distance,
which induces the same ordering.  Python `int` / `str` heterogeneity of
the `ids` arguments is modelled by `PyVal`.  Statements that reach the
storage engine, where a claim is about them, are recorded as a `Stmt`
trace returned alongside the result.
-/

/-- A scalar SQL/Python value stored in a (non-reserved) table cell. -/
inductive Val where
  | vint : Int → Val
  | vtext : String → Val
deriving DecidableEq

/-- An embedding vector (pgvector `VECTOR` value), components modelled as integers. -/
abbrev Vec := List Int

/-- A Python value passed in an `ids` list: an `int`, a `str`, or anything else
(e.g. a float or dict), which `isinstance(i, str) or isinstance(i, int)` rejects. -/
inductive PyVal where
  | pint : Int → PyVal
  | pstr : String → PyVal
  | pother : PyVal
deriving DecidableEq

/-- One row of a category table: the reserved columns `id`, `document`,
`embedding`, plus the non-NULL metadata cells as an association list. -/
structure Row where
  id : Int
  document : String
  embedding : Option Vec
  meta : List (String × Val)
deriving DecidableEq

/-- A category's backing table: the metadata columns added so far (in the
order `ALTER TABLE ... ADD COLUMN` added them) and the rows in engine order. -/
structure Table where
  metaCols : List String
  rows : List Row
deriving DecidableEq

/-- A statement reaching the storage engine, as far as the claims need to
distinguish them. -/
inductive Stmt where
  | createTable : Stmt
  | alterAddColumn : String → Stmt
  | selectStmt : Stmt
  | deleteFrom : Stmt
deriving DecidableEq

/-- The dictionary returned by `PostgresCollection.get`. -/
structure GetResult where
  ids : List Int
  documents : List String
  metadatas : List (List (String × Option Val))
deriving DecidableEq

/-- The dictionary returned by `PostgresClient.query`. -/
structure QueryResults where
  ids : List Int
  documents : List String
  embeddings : List (Option Vec)
  distances : List Int
  metadatas : List (List (String × Option Val))
deriving DecidableEq

/-- The reserved column names excluded from metadata reconstruction
(`postgres.py` line 73). -/
def reservedCols : List String := ["id", "document", "embedding"]

/-- All columns of a category table, in `SELECT *` order: the three base
columns followed by the dynamically added metadata columns. -/
def Table.allCols (t : Table) : List String := reservedCols ++ t.metaCols

/-- The non-reserved columns, as computed by
`[col for col in columns if col not in ["id", "document", "embedding"]]`. -/
def metaColumns (t : Table) : List String :=
  t.allCols.filter (fun c => decide (c ∉ reservedCols))

/-- The cell of row `r` in metadata column `c`: `none` models SQL NULL. -/
def Row.metaGet (r : Row) (c : String) : Option Val :=
  (r.meta.find? (fun p => p.1 == c)).map Prod.snd

/-- The metadata dictionary `{col: item[col] for col in metadata_columns}`
built by `PostgresCollection.get` for one row: every non-reserved column
appears, a NULL cell appearing as the key mapped to `none`. -/
def reconstructMeta (t : Table) (r : Row) : List (String × Option Val) :=
  (metaColumns t).map (fun c => (c, r.metaGet c))

/-- Python `isinstance(i, str) or isinstance(i, int)` (line 54). -/
def isIntOrStr : PyVal → Bool
  | PyVal.pint _ => true
  | PyVal.pstr _ => true
  | PyVal.pother => false

/-- Decimal digits of a string, as Python `int(s)` reads them: `none` unless
the list is non-empty and all digits. -/
def digitsToNat : List Char → Option Nat
  | [] => none
  | l =>
    if l.all Char.isDigit then
      some (l.foldl (fun n c => n * 10 + (c.toNat - '0'.toNat)) 0)
    else none

/-- Python `int(s)` on a string: an optional minus sign followed by digits,
`none` (i.e. `ValueError`) otherwise. -/
def pyStrToInt (s : String) : Option Int :=
  match s.data with
  | '-' :: rest => (digitsToNat rest).map (fun n => -(n : Int))
  | l => (digitsToNat l).map (fun n => (n : Int))

/-- Python `int(i)` on an `ids` element (line 64): an `int` is itself, a `str`
is parsed, anything else fails. -/
def pyToInt : PyVal → Option Int
  | PyVal.pint n => some n
  | PyVal.pstr s => pyStrToInt s
  | PyVal.pother => none

/-- `[int(i) for i in ids]`: the whole conversion fails (raises) as soon as one
element does. -/
def pyIntsOf : List PyVal → Option (List Int)
  | [] => some []
  | v :: vs =>
    match pyToInt v with
    | none => none
    | some n =>
      match pyIntsOf vs with
      | none => none
      | some ns => some (n :: ns)

/-- `isinstance(i, (int, str)) and str(i).isdigit()` from
`PostgresCollection.delete` (line 129): `str(i).isdigit()` holds for an `int`
exactly when it is non-negative, and for a `str` exactly when it is non-empty
and all digits. -/
def pyDigitLike : PyVal → Bool
  | PyVal.pint n => decide (0 ≤ n)
  | PyVal.pstr s => !s.data.isEmpty && s.data.all Char.isDigit
  | PyVal.pother => false

/-- `PostgresClient._ensure_metadata_columns_exist` (lines 196-214): for each
metadata key, a catalog existence check on `pg_attribute` (which sees every
existing column, the reserved ones included), and if absent an
`ALTER TABLE {table} ADD COLUMN {key} TEXT` with the key interpolated
verbatim.  No validation of the key is performed and no error path exists;
the issued `ALTER` statements are returned as the trace. -/
def ensureMetadataColumnsExist (tbl : Table) : List String → Table × List Stmt
  | [] => (tbl, [])
  | key :: keys =>
    if key ∈ tbl.allCols then ensureMetadataColumnsExist tbl keys
    else
      let step :=
        ensureMetadataColumnsExist { tbl with metaCols := tbl.metaCols ++ [key] } keys
      (step.1, Stmt.alterAddColumn key :: step.2)

/-- `PostgresClient.insert_memory` (lines 237-260): ensure the metadata
columns, compute an embedding when none is supplied, and when no id is
supplied take the current row count (`count()` just before the INSERT) as the
id.  Returns the new table state and the `RETURNING id` value. -/
def PostgresClient.insert_memory (embed : String → Vec) (tbl : Table)
    (document : String) (metadata : List (String × Val))
    (embedding : Option Vec) (idArg : Option Int) : Table × Int :=
  let tbl1 := (ensureMetadataColumnsExist tbl (metadata.map Prod.fst)).1
  let emb := embedding.getD (embed document)
  let newId := idArg.getD (tbl1.rows.length : Int)
  ({ tbl1 with rows := tbl1.rows ++ [⟨newId, document, some emb, metadata⟩] }, newId)

/-- `PostgresCollection.add` (lines 22-30): zips the parallel lists and calls
`insert_memory(category, document, metadata[, emb])` for each tuple — the
bound `id_` is never passed on, so `insert_memory` assigns its own id. -/
def PostgresCollection.add (embed : String → Vec) (tbl : Table)
    (ids : List PyVal) (documents : List String)
    (metadatas : List (List (String × Val)))
    (embeddings : Option (List Vec)) : Table :=
  match embeddings with
  | none =>
    (ids.zip (documents.zip metadatas)).foldl
      (fun t p => (PostgresClient.insert_memory embed t p.2.1 p.2.2 none none).1) tbl
  | some embs =>
    (ids.zip (documents.zip (metadatas.zip embs))).foldl
      (fun t p =>
        (PostgresClient.insert_memory embed t p.2.1 p.2.2.1 (some p.2.2.2) none).1) tbl

/-- The result dictionary `PostgresCollection.get` builds from the fetched
rows (lines 71-86). -/
def buildGetResult (tbl : Table) (rows : List Row) : GetResult :=
  ⟨rows.map Row.id, rows.map Row.document, rows.map (fun r => reconstructMeta tbl r)⟩

/-- `PostgresCollection.get` (lines 32-86).  With a falsy `ids` (None or
empty) it scans with `LIMIT limit OFFSET offset` (defaults 100 / 0);
otherwise it validates that every element is an `int` or a `str`, converts
with `int(...)` (which can itself raise), and selects
`WHERE id=ANY(ids) LIMIT limit OFFSET offset` with `limit` defaulting to
`len(ids)`.  The `where`, `where_document` and `include` parameters are
accepted and ignored.  The first component is the trace of statements that
reached the engine. -/
def PostgresCollection.get (tbl : Table) (ids : Option (List PyVal))
    (whereC : Option (List (String × Val))) (limit offset : Option Nat)
    (whereDoc : Option (List (String × String))) (inc : List String) :
    List Stmt × Except String GetResult :=
  if (ids.getD []).isEmpty then
    ([Stmt.selectStmt],
     Except.ok (buildGetResult tbl
       ((tbl.rows.drop (offset.getD 0)).take (limit.getD 100))))
  else if !((ids.getD []).all isIntOrStr) then
    ([], Except.error "ids must be a list of integers or strings representing integers")
  else
    match pyIntsOf (ids.getD []) with
    | none => ([], Except.error "invalid literal for int() with base 10")
    | some intIds =>
      ([Stmt.selectStmt],
       Except.ok (buildGetResult tbl
         (((tbl.rows.filter (fun r => intIds.contains r.id)).drop (offset.getD 0)).take
           (limit.getD (ids.getD []).length))))

/-- The default `include` argument of `get`. -/
def defaultInclude : List String := ["metadatas", "documents"]

/-- The embedding function used for concrete evaluations: the length of the
document as a one-component vector. -/
def embedLen : String → Vec := fun s => [(s.length : Int)]

/-- The empty, freshly created table of a new category. -/
def emptyTable : Table := ⟨[], []⟩

/-- One conjunct of the WHERE clause `PostgresCollection.delete` builds. -/
inductive Cond where
  | byIds : List Int → Cond
  | docContains : String → Cond
  | metaEq : String → Val → Cond
deriving DecidableEq

/-- Whether a row satisfies one delete condition.  `id=ANY(ids)` is id
membership; `document LIKE %s% ` is substring containment; `{key}=%s`
compares the column named `key`: a reserved column compares the base field
(`embedding=%s` against a scalar parameter never holds), a metadata column
compares its cell, where a NULL cell equals nothing. -/
def condHolds (r : Row) : Cond → Bool
  | Cond.byIds l => l.contains r.id
  | Cond.docContains s => decide (List.IsInfix s.data r.document.data)
  | Cond.metaEq k v =>
    if k = "id" then v == Val.vint r.id
    else if k = "document" then v == Val.vtext r.document
    else if k = "embedding" then false
    else r.metaGet k == some v

/-- The tail of `PostgresCollection.delete` after id validation: build the
condition list from `ids`, `where_document` (its `$contains` key) and `where`
in that order; with no conditions raise instead of deleting, otherwise delete
the matching rows. -/
def deleteCore (tbl : Table) (idConds : List Cond)
    (whereM : Option (List (String × Val)))
    (whereDoc : Option (List (String × String))) : List Stmt × Except String Table :=
  let docConds :=
    match whereDoc with
    | none => []
    | some wd =>
      match wd.find? (fun p => p.1 == "$contains") with
      | some p => [Cond.docContains p.2]
      | none => []
  let metaConds :=
    match whereM with
    | none => []
    | some m => m.map (fun p => Cond.metaEq p.1 p.2)
  let conds := idConds ++ docConds ++ metaConds
  if conds.isEmpty then
    ([Stmt.createTable], Except.error "No valid conditions provided for deletion.")
  else
    ([Stmt.createTable, Stmt.deleteFrom],
     Except.ok { tbl with rows := tbl.rows.filter (fun r => !(conds.all (condHolds r))) })

/-- `PostgresCollection.delete` (lines 117-154): `ensure_table_exists` first
(the `CREATE TABLE IF NOT EXISTS` in the trace), then, if `ids` is not None,
validation that every element is an integer-like `int`/`str`; a raise happens
before any DELETE reaches the engine. -/
def PostgresCollection.delete (tbl : Table) (ids : Option (List PyVal))
    (whereM : Option (List (String × Val)))
    (whereDoc : Option (List (String × String))) : List Stmt × Except String Table :=
  match ids with
  | none => deleteCore tbl [] whereM whereDoc
  | some l =>
    if !(l.all pyDigitLike) then
      ([Stmt.createTable],
       Except.error "ids must be a list of integers or strings representing integers")
    else
      deleteCore tbl [Cond.byIds (l.map (fun v => (pyToInt v).getD 0))] whereM whereDoc

/-- `PostgresClient._table_name` (line 181): `f"memory_{category}"`. -/
def tableNameStr (c : String) : String := "memory_" ++ c

/-- `ensure_table_exists` at the catalog level: `CREATE TABLE IF NOT EXISTS`
adds the table name to the engine's catalog when absent. -/
def ensureTableCatalog (catalog : List String) (c : String) : List String :=
  if tableNameStr c ∈ catalog then catalog else catalog ++ [tableNameStr c]

/-- Python `s.split("_")` specialised to the single-character separator. -/
def splitU : List Char → List (List Char)
  | [] => [[]]
  | c :: cs =>
    if c = '_' then [] :: splitU cs
    else
      match splitU cs with
      | [] => [[c]]
      | g :: gs => (c :: g) :: gs

/-- `row[0].split("_")[1]` from `PostgresClient.list_collections` (line 221):
the segment between the first and the second underscore of the table name. -/
def decodeTableName (t : String) : String := String.mk (List.getD (splitU t.data) 1 [])

/-- `PostgresClient.list_collections` (lines 216-224): the catalog's table
names filtered by the `memory_` prefix, each decoded by
`row[0].split("_")[1]`. -/
def listCollections (catalog : List String) : List String :=
  (catalog.filter (fun t => List.isPrefixOf "memory_".data t.data)).map decodeTableName

/-- Squared Euclidean distance, the embedding of pgvector's `<->` operator
(same induced ordering). -/
def dist (a b : Vec) : Int :=
  ((a.zip b).map (fun p => (p.1 - p.2) * (p.1 - p.2))).sum

/-- The `distance` column `embedding <-> %s` computed for a row against the
embedding of query text `t`. -/
def rowDist (embed : String → Vec) (t : String) (r : Row) : Int :=
  dist (r.embedding.getD []) (embed t)

/-- One `SELECT ... ORDER BY embedding <-> %s LIMIT %s` batch of
`PostgresClient.query`: the rows sorted by distance to the query embedding,
truncated to `n_results`. -/
def queryBatch (embed : String → Vec) (tbl : Table) (t : String) (k : Nat) : List Row :=
  (List.insertionSort (fun a b => rowDist embed t a ≤ rowDist embed t b) tbl.rows).take k

/-- The non-reserved columns of the query's SELECT (line 308-312): the
column list is `id, document, embedding, distance` followed by `*`, and
metadata columns are those not among the four reserved names. -/
def queryMetaColumns (t : Table) : List String :=
  (["id", "document", "embedding", "distance"] ++ t.allCols).filter
    (fun c => decide (c ∉ ["id", "document", "embedding", "distance"]))

/-- The metadata dictionary built for one row of a query batch. -/
def queryReconstructMeta (tbl : Table) (r : Row) : List (String × Option Val) :=
  (queryMetaColumns tbl).map (fun c => (c, r.metaGet c))

/-- The slice of the `results` dictionary contributed by one query text. -/
def batchResults (embed : String → Vec) (tbl : Table) (t : String) (k : Nat) : QueryResults :=
  ⟨(queryBatch embed tbl t k).map Row.id,
   (queryBatch embed tbl t k).map Row.document,
   (queryBatch embed tbl t k).map Row.embedding,
   (queryBatch embed tbl t k).map (rowDist embed t),
   (queryBatch embed tbl t k).map (queryReconstructMeta tbl)⟩

/-- Field-wise concatenation of the `results` lists: appending one batch's
rows after the rows already accumulated. -/
def appendResults (a b : QueryResults) : QueryResults :=
  ⟨a.ids ++ b.ids, a.documents ++ b.documents, a.embeddings ++ b.embeddings,
   a.distances ++ b.distances, a.metadatas ++ b.metadatas⟩

/-- `PostgresClient.query` (lines 284-322): one nearest-neighbour SELECT per
query text, each batch's rows appended to the accumulated result lists in
input order. -/
def PostgresClient.query (embed : String → Vec) (tbl : Table) :
    List String → Nat → QueryResults
  | [], _ => ⟨[], [], [], [], []⟩
  | t :: ts, k =>
    appendResults (batchResults embed tbl t k) (PostgresClient.query embed tbl ts k)

/-- `PostgresCollection.query` (lines 92-101): forwards only the category,
`query_texts` and `n_results` to the client; `query_embeddings`, `where`,
`where_document` and `include` are accepted and ignored. -/
def PostgresCollection.query (embed : String → Vec) (tbl : Table)
    (queryEmbeddings : Option (List Vec)) (queryTexts : List String) (nResults : Nat)
    (whereC : Option (List (String × Val))) (whereDoc : Option (List (String × String)))
    (inc : List String) : QueryResults :=
  PostgresClient.query embed tbl queryTexts nResults

/-- Python truthiness of the `document` argument of `PostgresClient.update`:
`if document:` is false for `None` and for the empty string. -/
def docTruthy (document : Option String) : Bool := document.getD "" ≠ ""

/-- Python truthiness of the `metadata` argument: `if metadata:` is false for
`None` and for an empty dict. -/
def metaTruthy (metadata : Option (List (String × Val))) : Bool :=
  !(metadata.getD []).isEmpty

/-- Setting one metadata column of a row, as the row-level effect of
`SET {key}=%s`. -/
def assocSet (m : List (String × Val)) (p : String × Val) : List (String × Val) :=
  if m.any (fun q => q.1 == p.1) then m.map (fun q => if q.1 == p.1 then p else q)
  else m ++ [p]

/-- Applying a metadata assignment list to a row. -/
def setMetaPairs (r : Row) (pairs : List (String × Val)) : Row :=
  { r with meta := pairs.foldl (fun m p => assocSet m p) r.meta }

/-- `PostgresClient.update` (lines 324-357).  With a truthy `document`, a
missing embedding is computed from the new document and one UPDATE sets
`document`, `embedding` and (when `metadata` is truthy, after ensuring its
columns) the metadata columns, on the rows whose id matches.  With a falsy
`document` but truthy `metadata`, one UPDATE sets only the metadata columns.
Otherwise no UPDATE is executed. -/
def PostgresClient.update (embed : String → Vec) (tbl : Table) (idv : Int)
    (document : Option String) (metadata : Option (List (String × Val)))
    (embedding : Option Vec) : Table :=
  if docTruthy document then
    let d := document.getD ""
    let emb := embedding.getD (embed d)
    if metaTruthy metadata then
      let pairs := metadata.getD []
      let tbl1 := (ensureMetadataColumnsExist tbl (pairs.map Prod.fst)).1
      { tbl1 with
        rows := tbl1.rows.map (fun r =>
          if r.id = idv then setMetaPairs { r with document := d, embedding := some emb } pairs
          else r) }
    else
      { tbl with
        rows := tbl.rows.map (fun r =>
          if r.id = idv then { r with document := d, embedding := some emb } else r) }
  else if metaTruthy metadata then
    let pairs := metadata.getD []
    let tbl1 := (ensureMetadataColumnsExist tbl (pairs.map Prod.fst)).1
    { tbl1 with
      rows := tbl1.rows.map (fun r => if r.id = idv then setMetaPairs r pairs else r) }
  else tbl

/-- Ensuring metadata columns only alters the schema, never the rows. -/
theorem ensureMetadataColumnsExist_rows (keys : List String) :
    ∀ tbl : Table, (ensureMetadataColumnsExist tbl keys).1.rows = tbl.rows := by
  induction keys with
  | nil => intro tbl; rfl
  | cons k ks ih =>
    intro tbl
    by_cases h : k ∈ tbl.allCols <;> simp [ensureMetadataColumnsExist, h, ih]

/-- C2: for every category state, `delete` with `ids=None`, `where=None` and
`where_document=None` raises the validation error and no DELETE statement
reaches the storage engine (the only statement issued is the
`CREATE TABLE IF NOT EXISTS` of `ensure_table_exists`), so the table's rows
are unchanged. -/
theorem delete_no_predicates_errors (tbl : Table) :
    (PostgresCollection.delete tbl none none none).2 =
      Except.error "No valid conditions provided for deletion."
    ∧ Stmt.deleteFrom ∉ (PostgresCollection.delete tbl none none none).1 := by
  refine ⟨rfl, ?_⟩
  have h : (PostgresCollection.delete tbl none none none).1 = [Stmt.createTable] := rfl
  rw [h]
  decide

/-- C10: `insert_memory` with no supplied id assigns as id the row count of
the table just before the INSERT, and appends the new row under that id. -/
theorem insert_memory_id_is_row_count (embed : String → Vec) (tbl : Table)
    (d : String) (m : List (String × Val)) (e : Option Vec) :
    (PostgresClient.insert_memory embed tbl d m e none).2 = (tbl.rows.length : Int)
    ∧ ((PostgresClient.insert_memory embed tbl d m e none).1).rows.map Row.id
        = tbl.rows.map Row.id ++ [(tbl.rows.length : Int)] := by
  unfold PostgresClient.insert_memory
  simp [ensureMetadataColumnsExist_rows]

/-- C1 (failing input): on a fresh category,
`add(ids=[1], documents=["x"], metadatas=[{"tag": "a"}])` stores the row
under id 0 (the row count), because `PostgresCollection.add` never forwards
the caller-supplied id to `insert_memory`; the subsequent `get(ids=[1])`
therefore returns no record at all. -/
theorem add_drops_supplied_id :
    (PostgresCollection.get
        (PostgresCollection.add embedLen emptyTable [PyVal.pint 1] ["x"]
          [[("tag", Val.vtext "a")]] none)
        (some [PyVal.pint 1]) none none none none defaultInclude).2
      = Except.ok ⟨[], [], []⟩
    ∧ (PostgresCollection.add embedLen emptyTable [PyVal.pint 1] ["x"]
        [[("tag", Val.vtext "a")]] none).rows.map Row.id = [0] :=
  ⟨rfl, rfl⟩

/-- C8 (failing input): `_ensure_metadata_columns_exist` performs no
validation of metadata keys.  A key that is not a valid column identifier is
interpolated verbatim into the `ALTER TABLE ... ADD COLUMN` statement, and a
key colliding with the reserved column `id` is silently treated as already
existing; no validation error is signalled on either input (the operation has
no error path at all). -/
theorem ensure_metadata_columns_no_validation :
    (ensureMetadataColumnsExist emptyTable ["bad key; DROP TABLE memory_x"]).2
      = [Stmt.alterAddColumn "bad key; DROP TABLE memory_x"]
    ∧ ensureMetadataColumnsExist emptyTable ["id"] = (emptyTable, []) :=
  ⟨rfl, rfl⟩

/-- C5: `get` returns identical results for identical `ids`, `limit` and
`offset` whatever the `where`, `where_document` and `include` arguments, and
`PostgresCollection.query` returns identical results for identical
`query_texts` and `n_results` whatever the `query_embeddings`, `where`,
`where_document` and `include` arguments: none of these parameters affects
row selection or the returned fields. -/
theorem get_and_query_ignore_filter_args (tbl : Table) (ids : Option (List PyVal))
    (limit offset : Option Nat) (w1 w2 : Option (List (String × Val)))
    (wd1 wd2 : Option (List (String × String))) (i1 i2 : List String)
    (embed : String → Vec) (qe1 qe2 : Option (List Vec)) (ts : List String) (k : Nat)
    (w3 w4 : Option (List (String × Val))) (wd3 wd4 : Option (List (String × String)))
    (i3 i4 : List String) :
    PostgresCollection.get tbl ids w1 limit offset wd1 i1
      = PostgresCollection.get tbl ids w2 limit offset wd2 i2
    ∧ PostgresCollection.query embed tbl qe1 ts k w3 wd3 i3
      = PostgresCollection.query embed tbl qe2 ts k w4 wd4 i4 :=
  ⟨rfl, rfl⟩

/-- Splitting a string that starts with the `memory_` prefix: the prefix
becomes the first segment. -/
theorem splitU_memory_prefix (l : List Char) :
    splitU ("memory_".data ++ l) = "memory".data :: splitU l := rfl

/-- A string with no underscore splits into the single segment it is. -/
theorem splitU_no_underscore (l : List Char) (h : '_' ∉ l) : splitU l = [l] := by
  induction l with
  | nil => rfl
  | cons c cs ih =>
    have hc : ¬(c = '_') := fun hh => h (hh ▸ List.mem_cons_self c cs)
    have hcs : '_' ∉ cs := fun hh => h (List.mem_cons_of_mem c hh)
    simp [splitU, hc, ih hcs]

/-- A list is a Boolean prefix of itself followed by anything. -/
theorem isPrefixOf_append_self (m x : List Char) : List.isPrefixOf m (m ++ x) = true := by
  induction m with
  | nil => simp [List.isPrefixOf]
  | cons a as ih => simp [List.isPrefixOf, ih]

/-- For a category name without underscores, `split("_")[1]` recovers exactly
the category from its table name. -/
theorem decodeTableName_tableName (c : String) (h : '_' ∉ c.data) :
    decodeTableName (tableNameStr c) = c := by
  unfold decodeTableName tableNameStr
  rw [String.data_append, splitU_memory_prefix, splitU_no_underscore c.data h]
  show String.mk c.data = c
  cases c
  rfl

/-- C6 (counterexample): for the valid category name `a_b`, after
`ensure_table_exists` the enumerated collection is named `a` — the
`split("_")[1]` decoding truncates at the second underscore — so no
collection named `a_b` is listed. -/
theorem list_collections_underscore_counterexample :
    listCollections (ensureTableCatalog [] "a_b") = ["a"]
    ∧ "a_b" ∉ listCollections (ensureTableCatalog [] "a_b") := by
  constructor
  · rfl
  · decide

/-- C6 (amended): for every category name without an underscore, after
`ensure_table_exists` the category is among the names `list_collections`
returns; and every name `list_collections` returns is decoded from a catalog
table following the `memory_` naming convention — no other table is
enumerated. -/
theorem list_collections_roundtrip (tables : List String) (c : String)
    (h : '_' ∉ c.data) :
    c ∈ listCollections (ensureTableCatalog tables c)
    ∧ ∀ n ∈ listCollections tables, ∃ t, t ∈ tables
        ∧ List.isPrefixOf "memory_".data t.data = true ∧ n = decodeTableName t := by
  constructor
  · have hmem : tableNameStr c ∈ ensureTableCatalog tables c := by
      unfold ensureTableCatalog
      split
      · assumption
      · exact List.mem_append_right _ (List.mem_singleton.mpr rfl)
    have hpre : List.isPrefixOf "memory_".data (tableNameStr c).data = true := by
      show List.isPrefixOf "memory_".data ("memory_" ++ c).data = true
      rw [String.data_append]
      exact isPrefixOf_append_self _ _
    have hdec := decodeTableName_tableName c h
    unfold listCollections
    exact List.mem_map.mpr ⟨tableNameStr c, List.mem_filter.mpr ⟨hmem, hpre⟩, hdec⟩
  · intro n hn
    unfold listCollections at hn
    obtain ⟨t, ht, rfl⟩ := List.mem_map.mp hn
    obtain ⟨ht1, ht2⟩ := List.mem_filter.mp ht
    exact ⟨t, ht1, ht2, rfl⟩

/-- Instance of `list_collections_roundtrip` at a concrete catalog and
category name. -/
theorem list_collections_roundtrip_witness :
    ('_' ∉ "notes".data)
    ∧ ("notes" ∈ listCollections (ensureTableCatalog ["x"] "notes")
      ∧ ∀ n ∈ listCollections ["x"], ∃ t, t ∈ ["x"]
          ∧ List.isPrefixOf "memory_".data t.data = true ∧ n = decodeTableName t) :=
  ⟨by decide, list_collections_roundtrip ["x"] "notes" (by decide)⟩

/-- If some element of the list fails `int(...)`, the whole comprehension
raises. -/
theorem pyIntsOf_eq_none (l : List PyVal) (v : PyVal) (hv : v ∈ l)
    (hn : pyToInt v = none) : pyIntsOf l = none := by
  induction l with
  | nil => cases hv
  | cons a as ih =>
    cases hv with
    | head => simp [pyIntsOf, hn]
    | tail _ hm =>
      cases ha : pyToInt a with
      | none => simp [pyIntsOf, ha]
      | some n => simp [pyIntsOf, ha, ih hm]

/-- C7: a `get` whose `ids` list contains an element that is neither an
integer nor a string of integer form fails before any SELECT reaches the
engine: the statement trace is empty and the result is an error (the
isinstance validation error for non-`int`/`str` elements, the `int(...)`
`ValueError` for non-numeric strings). -/
theorem get_invalid_ids_error (tbl : Table) (idsL : List PyVal)
    (whereC : Option (List (String × Val))) (limit offset : Option Nat)
    (whereDoc : Option (List (String × String))) (inc : List String)
    (h : ∃ v, v ∈ idsL ∧ pyToInt v = none) :
    (PostgresCollection.get tbl (some idsL) whereC limit offset whereDoc inc).1 = []
    ∧ ∃ msg, (PostgresCollection.get tbl (some idsL) whereC limit offset whereDoc inc).2
        = Except.error msg := by
  obtain ⟨v, hv, hn⟩ := h
  have hne : idsL.isEmpty = false := by
    cases idsL
    · cases hv
    · rfl
  cases hall : idsL.all isIntOrStr with
  | false =>
    constructor
    · simp [PostgresCollection.get, hne, hall]
    · exact ⟨"ids must be a list of integers or strings representing integers",
        by simp [PostgresCollection.get, hne, hall]⟩
  | true =>
    have hnone := pyIntsOf_eq_none idsL v hv hn
    constructor
    · simp [PostgresCollection.get, hne, hall, hnone]
    · exact ⟨"invalid literal for int() with base 10",
        by simp [PostgresCollection.get, hne, hall, hnone]⟩

/-- Instance of `get_invalid_ids_error` at the non-numeric string `"abc"`. -/
theorem get_invalid_ids_error_witness :
    (∃ v, v ∈ [PyVal.pstr "abc"] ∧ pyToInt v = none)
    ∧ ((PostgresCollection.get emptyTable (some [PyVal.pstr "abc"]) none none none none
          defaultInclude).1 = []
      ∧ ∃ msg, (PostgresCollection.get emptyTable (some [PyVal.pstr "abc"]) none none none
          none defaultInclude).2 = Except.error msg) :=
  ⟨⟨PyVal.pstr "abc", by decide, by decide⟩,
   get_invalid_ids_error emptyTable [PyVal.pstr "abc"] none none none none defaultInclude
     ⟨PyVal.pstr "abc", by decide, by decide⟩⟩

/-- The table with one metadata column `tag` and one row whose `tag` cell is
NULL. -/
def nullMetaTable : Table := ⟨["tag"], [⟨0, "d", some [1], []⟩]⟩

/-- C4 (counterexample): for a row whose `tag` metadata cell is NULL, the
metadata mapping returned by `get` contains the key `tag` mapped to the typed
null — the key is not surfaced as absent. -/
theorem get_surfaces_null_as_typed_null :
    ∃ res, (PostgresCollection.get nullMetaTable (some [PyVal.pint 0]) none none none none
        defaultInclude).2 = Except.ok res
      ∧ ∃ m, m ∈ res.metadatas ∧ ("tag", (none : Option Val)) ∈ m :=
  ⟨⟨[0], ["d"], [[("tag", none)]]⟩, rfl, [("tag", none)], by decide, by decide⟩

/-- C4 (amended): every metadata mapping `get` returns is the reconstruction,
for some stored row, over exactly the non-reserved columns (reserved: `id`,
`document`, `embedding`), each column present as a key and a NULL cell
surfaced as the key mapped to `none` rather than omitted. -/
theorem get_metadata_from_nonreserved (tbl : Table) (ids : Option (List PyVal))
    (whereC : Option (List (String × Val))) (limit offset : Option Nat)
    (whereDoc : Option (List (String × String))) (inc : List String) (res : GetResult)
    (h : (PostgresCollection.get tbl ids whereC limit offset whereDoc inc).2
        = Except.ok res) :
    ∀ m ∈ res.metadatas, ∃ r, r ∈ tbl.rows ∧ m = reconstructMeta tbl r := by
  intro m hm
  unfold PostgresCollection.get at h
  split at h
  · simp only [Except.ok.injEq] at h
    rw [← h] at hm
    obtain ⟨r, hr, hrm⟩ := List.mem_map.mp hm
    exact ⟨r, List.drop_subset _ _ (List.take_subset _ _ hr), hrm.symm⟩
  · split at h
    · cases h
    · split at h
      · cases h
      · simp only [Except.ok.injEq] at h
        rw [← h] at hm
        obtain ⟨r, hr, hrm⟩ := List.mem_map.mp hm
        exact ⟨r,
          List.mem_of_mem_filter
            (List.drop_subset _ _ (List.take_subset _ _ hr)),
          hrm.symm⟩

/-- Instance of `get_metadata_from_nonreserved` at a concrete table with a
NULL metadata cell. -/
theorem get_metadata_from_nonreserved_witness :
    ((PostgresCollection.get nullMetaTable none none none none none
        defaultInclude).2 = Except.ok ⟨[0], ["d"], [[("tag", none)]]⟩)
    ∧ ∀ m ∈ (GetResult.mk [0] ["d"] [[("tag", none)]]).metadatas,
        ∃ r, r ∈ nullMetaTable.rows ∧ m = reconstructMeta nullMetaTable r :=
  ⟨rfl,
   get_metadata_from_nonreserved nullMetaTable none none none none none defaultInclude
     ⟨[0], ["d"], [[("tag", none)]]⟩ rfl⟩

/-- Setting metadata columns leaves the `id` field of a row unchanged. -/
theorem setMetaPairs_id (r : Row) (ps : List (String × Val)) :
    (setMetaPairs r ps).id = r.id := rfl

/-- Setting metadata columns leaves the `document` field of a row unchanged. -/
theorem setMetaPairs_document (r : Row) (ps : List (String × Val)) :
    (setMetaPairs r ps).document = r.document := rfl

/-- Setting metadata columns leaves the `embedding` field of a row unchanged. -/
theorem setMetaPairs_embedding (r : Row) (ps : List (String × Val)) :
    (setMetaPairs r ps).embedding = r.embedding := rfl

/-- C9: an update that supplies a (truthy) document and no embedding computes
the embedding of the new document and writes both in the same UPDATE: in the
resulting table every row carrying the targeted id holds the new document
together with its freshly computed embedding. -/
theorem update_document_refreshes_embedding (embed : String → Vec) (tbl : Table)
    (idv : Int) (d : String) (metadata : Option (List (String × Val))) (hd : d ≠ "") :
    ∀ r ∈ (PostgresClient.update embed tbl idv (some d) metadata none).rows,
      r.id = idv → r.document = d ∧ r.embedding = some (embed d) := by
  intro r hr hid
  have hdt : docTruthy (some d) = true := by simp [docTruthy, hd]
  unfold PostgresClient.update at hr
  rw [if_pos hdt] at hr
  by_cases hmt : metaTruthy metadata = true
  · rw [if_pos hmt] at hr
    simp only at hr
    obtain ⟨r0, _, hfr⟩ := List.mem_map.mp hr
    by_cases h0 : r0.id = idv
    · rw [if_pos h0] at hfr
      rw [← hfr]
      exact ⟨setMetaPairs_document _ _, setMetaPairs_embedding _ _⟩
    · rw [if_neg h0] at hfr
      rw [← hfr] at hid
      exact absurd hid h0
  · rw [if_neg hmt] at hr
    simp only at hr
    obtain ⟨r0, _, hfr⟩ := List.mem_map.mp hr
    by_cases h0 : r0.id = idv
    · rw [if_pos h0] at hfr
      rw [← hfr]
      exact ⟨rfl, rfl⟩
    · rw [if_neg h0] at hfr
      rw [← hfr] at hid
      exact absurd hid h0

/-- The table holding the single row inserted for document `x`. -/
def oneRowTable : Table := ⟨[], [⟨0, "x", some [1], []⟩]⟩

/-- Instance of `update_document_refreshes_embedding`: updating row 0 of a
one-row table with the new document `y` and no embedding. -/
theorem update_document_refreshes_embedding_witness :
    ("y" ≠ "")
    ∧ ∀ r ∈ (PostgresClient.update embedLen oneRowTable 0 (some "y") none none).rows,
        r.id = 0 → r.document = "y" ∧ r.embedding = some (embedLen "y") :=
  ⟨by decide,
   update_document_refreshes_embedding embedLen oneRowTable 0 "y" none (by decide)⟩

/-- The result lists built by the query loop are the per-text batches
flattened in input order. -/
theorem query_eq_flatten_batches (embed : String → Vec) (tbl : Table)
    (ts : List String) (k : Nat) :
    PostgresClient.query embed tbl ts k =
      ⟨(ts.map (fun t => (queryBatch embed tbl t k).map Row.id)).flatten,
       (ts.map (fun t => (queryBatch embed tbl t k).map Row.document)).flatten,
       (ts.map (fun t => (queryBatch embed tbl t k).map Row.embedding)).flatten,
       (ts.map (fun t => (queryBatch embed tbl t k).map (rowDist embed t))).flatten,
       (ts.map (fun t => (queryBatch embed tbl t k).map (queryReconstructMeta tbl))).flatten⟩ := by
  induction ts with
  | nil => rfl
  | cons t ts ih => simp [PostgresClient.query, appendResults, batchResults, ih]

/-- C3: each query text contributes a batch of at most `n_results` rows,
sorted by non-decreasing distance to that text's embedding, and the result
lists of `PostgresClient.query` are exactly those batches concatenated in
input order (never a merged top-k across the query texts). -/
theorem query_per_text_topk (embed : String → Vec) (tbl : Table)
    (ts : List String) (k : Nat) :
    (∀ t : String, (queryBatch embed tbl t k).length ≤ k
      ∧ List.Sorted (fun x y => x ≤ y)
          ((queryBatch embed tbl t k).map (rowDist embed t)))
    ∧ PostgresClient.query embed tbl ts k =
        ⟨(ts.map (fun t => (queryBatch embed tbl t k).map Row.id)).flatten,
         (ts.map (fun t => (queryBatch embed tbl t k).map Row.document)).flatten,
         (ts.map (fun t => (queryBatch embed tbl t k).map Row.embedding)).flatten,
         (ts.map (fun t => (queryBatch embed tbl t k).map (rowDist embed t))).flatten,
         (ts.map (fun t => (queryBatch embed tbl t k).map (queryReconstructMeta tbl))).flatten⟩ := by
  refine ⟨fun t => ⟨List.length_take_le _ _, ?_⟩, query_eq_flatten_batches embed tbl ts k⟩
  haveI : IsTotal Row (fun a b => rowDist embed t a ≤ rowDist embed t b) :=
    ⟨fun a b => le_total _ _⟩
  haveI : IsTrans Row (fun a b => rowDist embed t a ≤ rowDist embed t b) :=
    ⟨fun a b c h1 h2 => le_trans h1 h2⟩
  have hs :=
    List.sorted_insertionSort (fun a b => rowDist embed t a ≤ rowDist embed t b) tbl.rows
  have hts := List.Pairwise.sublist (List.take_sublist k _) hs
  exact List.Pairwise.map _ (fun a b hab => hab) hts
